import Mathlib

/-!
Verification development for the trade-algo-go trading engine.

Shallow embedding conventions:
* `decimal.Decimal` (shopspring, arbitrary-precision decimals) is modelled as `ℚ`.
  Addition, subtraction and multiplication of decimals are exact, so `ℚ` models
  them faithfully.  `decimal.Div` is modelled as exact rational division; Go's
  `Div` panics on a zero divisor, while `ℚ` returns 0 — every theorem whose Go
  counterpart would divide notes the divisor's status.
* Go maps `map[string]*T` are modelled as association lists with the usual
  lookup/insert/delete operations (`alookup`, `aset`, `aerase`).
* `int64` quantities are modelled as `ℤ` (no claim in scope depends on 64-bit
  overflow behaviour).
* Time stamps, identifier strings and logging are irrelevant to every claim and
  are omitted from the records.
-/

namespace TradeAlgo

/-- Order side, from `models.OrderSide` (`buy` / `sell`). -/
inductive OrderSide where
  | buy
  | sell
deriving DecidableEq

/-- Order status, from `models.OrderStatus`. -/
inductive OrderStatus where
  | pending
  | filled
  | cancelled
  | rejected
deriving DecidableEq

/-- Risk metrics record, from `models.RiskMetrics`. -/
structure RiskMetrics where
  VaR95 : ℚ
  ExpectedShortfall : ℚ
  SharpeRatio : ℚ
  MaxDrawdown : ℚ
  Volatility : ℚ
  Beta : ℚ
deriving DecidableEq

/-- The zero value of `models.RiskMetrics` (all decimal fields zero), as
produced by `&models.RiskMetrics{}` in Go. -/
def RiskMetrics.empty : RiskMetrics :=
  { VaR95 := 0, ExpectedShortfall := 0, SharpeRatio := 0,
    MaxDrawdown := 0, Volatility := 0, Beta := 0 }

/-- Trade record, from `models.Trade` (identifier and timestamp fields that no
claim reads are omitted; `OrderID` is kept). -/
structure Trade where
  OrderID : String
  Symbol : String
  Side : OrderSide
  Quantity : ℤ
  Price : ℚ
  Commission : ℚ
  StrategyID : String
  RiskMetrics : RiskMetrics
deriving DecidableEq

/-- Order record, from `models.Order`. -/
structure Order where
  ID : String
  Symbol : String
  Side : OrderSide
  Quantity : ℤ
  Price : ℚ
  Status : OrderStatus
  StrategyID : String
  RiskMetrics : RiskMetrics
deriving DecidableEq

/-- Position record, from `models.Position`. -/
structure Position where
  Symbol : String
  Quantity : ℤ
  AveragePrice : ℚ
  CurrentPrice : ℚ
  UnrealizedPnL : ℚ
  RealizedPnL : ℚ
  MarketValue : ℚ
deriving DecidableEq

/-- Market data tick, from `models.MarketData` (only the price is read by the
engine's embedded operations). -/
structure MarketData where
  Price : ℚ
deriving DecidableEq

/-- Portfolio ledger, from `models.Portfolio`. -/
structure Portfolio where
  Cash : ℚ
  Positions : List (String × Position)
  TotalValue : ℚ
  UnrealizedPnL : ℚ
  RealizedPnL : ℚ
  TotalRisk : ℚ
  TradeHistory : List Trade
  OrderHistory : List Order
deriving DecidableEq

/-- Strategy configuration, from `models.StrategyConfig` (the fields the
embedded operations read). -/
structure StrategyConfig where
  MaxPositionSize : ℚ
  MaxPortfolioRisk : ℚ
  MinOrderSize : ℚ
  MaxOrderSize : ℚ
  RiskFreeRate : ℚ
deriving DecidableEq

/-- The rejection errors of `internal/strategies/errors.go`. -/
inductive Err where
  | ErrInvalidQuantity
  | ErrOrderTooSmall
  | ErrOrderTooLarge
  | ErrInsufficientFunds
  | ErrInsufficientPosition
  | ErrPositionTooLarge
  | ErrPortfolioRiskExceeded
deriving DecidableEq

/-- Association-list lookup, modelling Go's `m[key]` with its `exists` flag. -/
def alookup {α : Type} : List (String × α) → String → Option α
  | [], _ => none
  | e :: rest, s => if e.1 = s then some e.2 else alookup rest s

/-- Association-list update, modelling Go's `m[key] = v`. -/
def aset {α : Type} : List (String × α) → String → α → List (String × α)
  | [], s, v => [(s, v)]
  | e :: rest, s, v => if e.1 = s then (s, v) :: rest else e :: aset rest s v

/-- Association-list removal, modelling Go's `delete(m, key)`. -/
def aerase {α : Type} : List (String × α) → String → List (String × α)
  | [], _ => []
  | e :: rest, s => if e.1 = s then aerase rest s else e :: aerase rest s

/-- The quantity held for a symbol; an absent position counts as 0. -/
def posQty (p : Portfolio) (symbol : String) : ℤ :=
  match alookup p.Positions symbol with
  | none => 0
  | some pos => pos.Quantity

/-- The volume-weighted average entry price for a symbol; an absent position
counts as 0. -/
def posAvg (p : Portfolio) (symbol : String) : ℚ :=
  match alookup p.Positions symbol with
  | none => 0
  | some pos => pos.AveragePrice

/-- `BaseStrategy.ValidateOrder` from `internal/strategies/base.go` lines
55–82, translated check for check.  It is pure by construction: it returns
only the rejection verdict and cannot touch the order or the portfolio. -/
def ValidateOrder (cfg : StrategyConfig) (o : Order) (p : Portfolio) : Option Err :=
  if o.Quantity ≤ 0 then some Err.ErrInvalidQuantity
  else
    let orderValue := o.Price * (o.Quantity : ℚ)
    if orderValue < cfg.MinOrderSize then some Err.ErrOrderTooSmall
    else if cfg.MaxOrderSize < orderValue then some Err.ErrOrderTooLarge
    else if o.Side = OrderSide.buy then
      if p.Cash < orderValue then some Err.ErrInsufficientFunds else none
    else
      match alookup p.Positions o.Symbol with
      | none => some Err.ErrInsufficientPosition
      | some pos => if pos.Quantity < o.Quantity then some Err.ErrInsufficientPosition else none

/-- The percentage-return series of `BaseStrategy.calculateVolatility`
(`base.go` lines 125–134): the loop walks the whole trade history; at each
index `i ≥ 1` whose trade carries the requested symbol, it appends
`(hist[i].Price − hist[i−1].Price) / hist[i−1].Price` — note that
`hist[i−1]` is the immediately preceding trade of the history, whatever its
symbol — skipping pairs whose previous price is zero. -/
def tradeReturns (symbol : String) : List Trade → List ℚ
  | t0 :: t1 :: rest =>
      (if t1.Symbol = symbol ∧ t0.Price ≠ 0 then
        [(t1.Price - t0.Price) / t0.Price] else []) ++ tradeReturns symbol (t1 :: rest)
  | _ => []

/-- Arithmetic mean of a list of rationals, as computed by `base.go` lines
140–144 (`ℚ` division: the caller guarantees a non-empty list). -/
def listMean (rs : List ℚ) : ℚ := rs.sum / (rs.length : ℚ)

/-- Population variance of a list of rationals, as computed by `base.go`
lines 146–151: squared deviations from the mean divided by the count. -/
def populationVariance (rs : List ℚ) : ℚ :=
  ((rs.map (fun r => (r - listMean rs) * (r - listMean rs))).sum) / (rs.length : ℚ)

/-- `BaseStrategy.calculateVolatility` (`base.go` lines 120–158).  The Go code
finishes with `volatility = sqrt(variance)` computed through `float64`; the
square root is the only non-decimal step, so it is abstracted as a parameter
`f` (the claims about volatility are settled at the level of its square, see
`calculateVolatilitySq`). -/
def calculateVolatility (f : ℚ → ℚ) (symbol : String) (history : List Trade) : ℚ :=
  if history.length < 2 then 0
  else
    let rs := tradeReturns symbol history
    if rs.length = 0 then 0
    else
      let variance := populationVariance rs
      if 0 < variance then f variance else 0

/-- The exact square of the volatility `base.go` returns, idealizing the
`float64` square root as exact: `sqrt(variance)^2 = variance` on the branch
that takes the root, and `0` on the branches that return zero.  Square roots
preserve and reflect equality of non-negative values, so two volatilities
coincide exactly when their squares do, and the volatility claims are stated
on the squares. -/
def calculateVolatilitySq (symbol : String) (history : List Trade) : ℚ :=
  calculateVolatility (fun v => v) symbol history

/-- `BaseStrategy.calculateVaR` (`base.go` lines 164–167):
`orderValue × volatility × 1.645`. -/
def calculateVaR (orderValue volatility : ℚ) : ℚ :=
  orderValue * volatility * (1645 / 1000)

/-- `BaseStrategy.calculateExpectedShortfall` (`base.go` lines 169–171):
`var95 × 1.25`. -/
def calculateExpectedShortfall (var95 : ℚ) : ℚ :=
  var95 * (125 / 100)

/-- `BaseStrategy.calculateSharpeRatio` (`base.go` lines 173–179): zero when
the volatility is zero, otherwise `(orderValue − RiskFreeRate) / volatility`. -/
def calculateSharpeRatio (cfg : StrategyConfig) (orderValue volatility : ℚ) : ℚ :=
  if volatility = 0 then 0 else (orderValue - cfg.RiskFreeRate) / volatility

/-- One step of the `calculateMaxDrawdown` loop (`base.go` lines 189–197);
the accumulator carries `(peak, maxDrawdown)`.  Go would panic when `peak` is
zero (`decimal` division by zero); `ℚ` division yields 0 there. -/
def drawdownStep (acc : ℚ × ℚ) (price : ℚ) : ℚ × ℚ :=
  let peak := if acc.1 < price then price else acc.1
  let dd := (peak - price) / peak
  (peak, if acc.2 < dd then dd else acc.2)

/-- `BaseStrategy.calculateMaxDrawdown` (`base.go` lines 181–199): walks the
whole (symbol-agnostic) trade history with the running peak initialized to
the first trade's price; only each trade's price is read. -/
def calculateMaxDrawdown (history : List Trade) : ℚ :=
  match history with
  | [] => 0
  | t0 :: _ => ((history.map Trade.Price).foldl drawdownStep (t0.Price, 0)).2

/-- `BaseStrategy.CalculateRisk` (`base.go` lines 84–118).  `f` abstracts the
`float64` square root used for the volatility (see `calculateVolatility`);
`calculateBeta` (lines 160–162) is the constant 1. -/
def CalculateRisk (f : ℚ → ℚ) (cfg : StrategyConfig) (o : Order) (p : Portfolio) :
    Except Err RiskMetrics :=
  let orderValue := o.Price * (o.Quantity : ℚ)
  if p.TotalValue = 0 then Except.ok RiskMetrics.empty
  else
    let positionRisk := orderValue / p.TotalValue
    if cfg.MaxPositionSize < positionRisk then Except.error Err.ErrPositionTooLarge
    else if cfg.MaxPortfolioRisk < p.TotalRisk + positionRisk then
      Except.error Err.ErrPortfolioRiskExceeded
    else
      let volatility := calculateVolatility f o.Symbol p.TradeHistory
      let var95 := calculateVaR orderValue volatility
      Except.ok
        { VaR95 := var95
          ExpectedShortfall := calculateExpectedShortfall var95
          SharpeRatio := calculateSharpeRatio cfg orderValue volatility
          MaxDrawdown := calculateMaxDrawdown p.TradeHistory
          Volatility := volatility
          Beta := 1 }

/-- `TradingEngine.updatePosition` (`engine.go`, `src/unnamed/part_000` lines
303–334).  A missing position is first created with zero quantity, zero
average price and zero market value, exactly as the Go literal does; a
positive delta re-averages the entry price (`decimal.Div`; Go panics when
`oldQty + qty = 0`, which a positive delta on a non-negatively held position
never produces, while `ℚ` yields 0 there); a non-positive delta decrements and
deletes the entry when the result is ≤ 0. -/
def updatePosition (symbol : String) (quantity : ℤ) (price : ℚ) (p : Portfolio) : Portfolio :=
  let pos0 : Position :=
    match alookup p.Positions symbol with
    | some pos => pos
    | none =>
        { Symbol := symbol, Quantity := 0, AveragePrice := 0, CurrentPrice := price,
          UnrealizedPnL := 0, RealizedPnL := 0, MarketValue := 0 }
  if 0 < quantity then
    let totalCost := pos0.AveragePrice * (pos0.Quantity : ℚ) + price * (quantity : ℚ)
    let totalQuantity := pos0.Quantity + quantity
    let pos1 := { pos0 with AveragePrice := totalCost / (totalQuantity : ℚ),
                            Quantity := totalQuantity, CurrentPrice := price }
    { p with Positions := aset p.Positions symbol pos1 }
  else
    let q' := pos0.Quantity + quantity
    if q' ≤ 0 then { p with Positions := aerase p.Positions symbol }
    else
      let pos1 := { pos0 with Quantity := q', CurrentPrice := price }
      { p with Positions := aset p.Positions symbol pos1 }

/-- `TradingEngine.executeOrder` (`part_000` lines 261–287): commission is
`orderValue × 0.001` (the engine-level constant); a buy debits
`orderValue + commission` and adds the quantity, a sell credits
`orderValue − commission` and removes it; exactly one `Trade` is built and
pushed to the trade queue (returned here alongside the new portfolio). -/
def executeOrder (o : Order) (p : Portfolio) : Portfolio × Trade :=
  let orderValue := o.Price * (o.Quantity : ℚ)
  let commission := orderValue * (1 / 1000)
  let trade : Trade :=
    { OrderID := o.ID, Symbol := o.Symbol, Side := o.Side, Quantity := o.Quantity,
      Price := o.Price, Commission := commission, StrategyID := o.StrategyID,
      RiskMetrics := o.RiskMetrics }
  if o.Side = OrderSide.buy then
    (updatePosition o.Symbol o.Quantity o.Price { p with Cash := p.Cash - orderValue - commission },
     trade)
  else
    (updatePosition o.Symbol (-o.Quantity) o.Price { p with Cash := p.Cash + orderValue - commission },
     trade)

/-- `TradingEngine.processOrder` (`part_000` lines 230–259): look the strategy
up by the order's strategy id; on a missing strategy, failed validation or
failed risk check the order is marked rejected and the function returns — in
particular without appending to the order history; otherwise the risk metrics
are attached, the order is marked filled, executed, and appended to the order
history.  The result is the new portfolio, the trades pushed to the trade
queue, and the order in its terminal state. -/
def processOrder (f : ℚ → ℚ) (strats : List (String × StrategyConfig)) (o : Order)
    (p : Portfolio) : Portfolio × List Trade × Order :=
  match alookup strats o.StrategyID with
  | none => (p, [], { o with Status := OrderStatus.rejected })
  | some cfg =>
      match ValidateOrder cfg o p with
      | some _ => (p, [], { o with Status := OrderStatus.rejected })
      | none =>
          match CalculateRisk f cfg o p with
          | Except.error _ => (p, [], { o with Status := OrderStatus.rejected })
          | Except.ok rm =>
              let o' := { o with RiskMetrics := rm, Status := OrderStatus.filled }
              let r := executeOrder o' p
              ({ r.1 with OrderHistory := r.1.OrderHistory ++ [o'] }, [r.2], o')

/-- The re-valued copy of one positions-map entry, from the loop body of
`TradingEngine.updatePortfolio` (`part_000` lines 343–352): when the symbol
has market data, current price, market value and unrealized P&L are recomputed
from it; otherwise the entry is left untouched. -/
def updatedPosition (md : List (String × MarketData)) (e : String × Position) :
    String × Position :=
  match alookup md e.1 with
  | none => e
  | some d =>
      (e.1, { e.2 with CurrentPrice := d.Price,
                       MarketValue := d.Price * (e.2.Quantity : ℚ),
                       UnrealizedPnL := (d.Price - e.2.AveragePrice) * (e.2.Quantity : ℚ) })

/-- One iteration of the `updatePortfolio` loop: the accumulator carries the
rebuilt positions list and the running `totalValue` and `unrealizedPnL`; only
entries whose symbol has market data contribute to the running totals. -/
def valuationStep (md : List (String × MarketData))
    (acc : List (String × Position) × ℚ × ℚ) (e : String × Position) :
    List (String × Position) × ℚ × ℚ :=
  match alookup md e.1 with
  | none => (acc.1 ++ [e], acc.2.1, acc.2.2)
  | some _ =>
      let e' := updatedPosition md e
      (acc.1 ++ [e'], acc.2.1 + e'.2.MarketValue, acc.2.2 + e'.2.UnrealizedPnL)

/-- `TradingEngine.updatePortfolio` (`part_000` lines 336–357): the valuation
pass.  `totalValue` starts from the cash balance and accumulates the market
values of exactly those positions whose symbol has market data. -/
def updatePortfolio (md : List (String × MarketData)) (p : Portfolio) : Portfolio :=
  let r := p.Positions.foldl (valuationStep md) ([], p.Cash, 0)
  { p with Positions := r.1, TotalValue := r.2.1, UnrealizedPnL := r.2.2 }

/-- What one positions-map entry contributes to the running `totalValue` of
the valuation pass: its re-valued market value when its symbol has market
data, nothing otherwise. -/
def mvContrib (md : List (String × MarketData)) (e : String × Position) : ℚ :=
  match alookup md e.1 with
  | none => 0
  | some _ => (updatedPosition md e).2.MarketValue

/-- The reachable-state invariant behind claim C5: every position whose
symbol has no market data still has its initial zero market value (the
engine writes a position's `MarketValue` only in the valuation pass, and only
when market data for its symbol exists; market-data entries are never
removed). -/
def NoDataZeroMV (md : List (String × MarketData)) (p : Portfolio) : Prop :=
  ∀ e ∈ p.Positions, alookup md e.1 = none → e.2.MarketValue = 0

/-- Division as shopspring `decimal.Div` behaves: `none` models the Go panic
on a zero divisor. -/
def decimalDiv (a b : ℚ) : Option ℚ :=
  if b = 0 then none else some (a / b)

/-- The drawdown figures `TradingEngine.manageRisk` (`part_000` lines
359–373) computes: one `|UnrealizedPnL / MarketValue|` per position with
positive quantity, with `none` marking a division by zero (a Go panic). -/
def manageRiskDrawdowns (p : Portfolio) : List (Option ℚ) :=
  p.Positions.filterMap (fun e =>
    if e.2.Quantity ≤ 0 then none
    else some (Option.map (fun q => |q|) (decimalDiv e.2.UnrealizedPnL e.2.MarketValue)))

/-- The initial portfolio built by `NewTradingEngine` (`part_000` lines
27–51): the cash endowment, no positions, total value equal to the cash, and
every other numeric field zero. -/
def initialPortfolio (initialCash : ℚ) : Portfolio :=
  { Cash := initialCash, Positions := [], TotalValue := initialCash,
    UnrealizedPnL := 0, RealizedPnL := 0, TotalRisk := 0,
    TradeHistory := [], OrderHistory := [] }

/-- Spec-side (claim C4): the price series of the symbol's own trades, in
history order. -/
def symbolPrices (symbol : String) (history : List Trade) : List ℚ :=
  (history.filter (fun t => decide (t.Symbol = symbol))).map Trade.Price

/-- Spec-side (claim C4): consecutive percentage returns of a price series,
each computed between successive elements. -/
def seriesReturns : List ℚ → List ℚ
  | p0 :: p1 :: rest => (p1 - p0) / p0 :: seriesReturns (p1 :: rest)
  | _ => []

/-- Spec-side (claim C4): the square of the volatility the spec describes —
the population variance of the consecutive percentage returns of the
symbol's own trade-history price series, zero when fewer than two trades of
the symbol exist. -/
def specVolatilitySq (symbol : String) (history : List Trade) : ℚ :=
  if (symbolPrices symbol history).length < 2 then 0
  else populationVariance (seriesReturns (symbolPrices symbol history))

/-- Amended-claim-side (C4): the return at index `i ≥ 1` of the history pairs
the trade at `i` — when it carries the requested symbol — with the
immediately preceding trade of the history regardless of its symbol, skipped
when the preceding price is zero.  Stated by walking the index range, in
contrast to the paired-list recursion of `tradeReturns`. -/
def amendedReturns (symbol : String) (history : List Trade) : List ℚ :=
  (List.range (history.length - 1)).filterMap (fun j =>
    match history.get? j, history.get? (j + 1) with
    | some prev, some curr =>
        if curr.Symbol = symbol ∧ prev.Price ≠ 0 then
          some ((curr.Price - prev.Price) / prev.Price)
        else none
    | _, _ => none)

/-- Amended-claim-side (C4): population variance of `amendedReturns`, zero
when no return exists. -/
def amendedVolatilitySq (symbol : String) (history : List Trade) : ℚ :=
  if amendedReturns symbol history = [] then 0
  else populationVariance (amendedReturns symbol history)

/-- Spec-side (claim C7): the running peak of a price series — element `i` is
the maximum of the first `i + 1` prices, seeded with the series' first
element. -/
def runningMax (c : ℚ) : List ℚ → List ℚ
  | [] => []
  | x :: xs =>
      let m := if c < x then x else c
      m :: runningMax m xs

/-- Spec-side (claim C7): the largest peak-to-trough percentage decline,
`(runningPeak − price) / runningPeak`, obtained by walking the whole
symbol-agnostic trade history in chronological order (0 for an empty
history). -/
def specMaxDrawdown (history : List Trade) : ℚ :=
  match history.map Trade.Price with
  | [] => 0
  | p0 :: rest =>
      let prices := p0 :: rest
      (((runningMax p0 prices).zip prices).map (fun pr => (pr.1 - pr.2) / pr.1)).foldl
        (fun a b => if a < b then b else a) 0

/-- A concrete trade used by the concrete-input theorems below. -/
def sampleTrade (s : String) (pr : ℚ) : Trade :=
  { OrderID := "", Symbol := s, Side := OrderSide.buy, Quantity := 1, Price := pr,
    Commission := 0, StrategyID := "", RiskMetrics := RiskMetrics.empty }

/-- A trade history mixing symbols: the trade of symbol B sits between two
trades of symbol A, so the loop of `calculateVolatility` computes the third
return of A against B's price. -/
def mixedHistory : List Trade :=
  [sampleTrade "A" 100, sampleTrade "A" 200, sampleTrade "B" 999, sampleTrade "A" 200]

/-- A two-trade declining history: its peak-to-trough decline is 1/2. -/
def decliningHistory : List Trade :=
  [sampleTrade "A" 100, sampleTrade "A" 50]

/-- A permissive strategy configuration (both risk fractions at 2). -/
def cfgPermissive : StrategyConfig :=
  { MaxPositionSize := 2, MaxPortfolioRisk := 2, MinOrderSize := 0,
    MaxOrderSize := 1000000, RiskFreeRate := 0 }

/-- A standard strategy configuration (10% position cap, 20% portfolio cap). -/
def cfgStandard : StrategyConfig :=
  { MaxPositionSize := 1 / 10, MaxPortfolioRisk := 2 / 10, MinOrderSize := 0,
    MaxOrderSize := 1000000, RiskFreeRate := 0 }

/-- A portfolio whose cash and total value are exactly 1000. -/
def pAllCash : Portfolio :=
  { Cash := 1000, Positions := [], TotalValue := 1000, UnrealizedPnL := 0,
    RealizedPnL := 0, TotalRisk := 0, TradeHistory := [], OrderHistory := [] }

/-- A buy order whose notional (10 × 100 = 1000) exactly equals the cash of
`pAllCash`. -/
def orderAllIn : Order :=
  { ID := "o1", Symbol := "A", Side := OrderSide.buy, Quantity := 10, Price := 100,
    Status := OrderStatus.pending, StrategyID := "s", RiskMetrics := RiskMetrics.empty }

/-- A portfolio with zero total value and a declining trade history. -/
def pZeroTotal : Portfolio :=
  { Cash := 0, Positions := [], TotalValue := 0, UnrealizedPnL := 0,
    RealizedPnL := 0, TotalRisk := 0, TradeHistory := decliningHistory, OrderHistory := [] }

/-- A small buy order (1 × 10). -/
def orderSmall : Order :=
  { ID := "o2", Symbol := "A", Side := OrderSide.buy, Quantity := 1, Price := 10,
    Status := OrderStatus.pending, StrategyID := "s", RiskMetrics := RiskMetrics.empty }

/-- A buy order for 10 units of AAPL at 100, owned by strategy "s". -/
def orderBuyAAPL : Order :=
  { ID := "o3", Symbol := "AAPL", Side := OrderSide.buy, Quantity := 10, Price := 100,
    Status := OrderStatus.pending, StrategyID := "s", RiskMetrics := RiskMetrics.empty }

/-- An order with zero quantity (fails validation). -/
def orderZeroQty : Order :=
  { ID := "o4", Symbol := "AAPL", Side := OrderSide.buy, Quantity := 0, Price := 100,
    Status := OrderStatus.pending, StrategyID := "s", RiskMetrics := RiskMetrics.empty }

/-- A position of 10 units of AAPL at average price 100. -/
def posAAPL : Position :=
  { Symbol := "AAPL", Quantity := 10, AveragePrice := 100, CurrentPrice := 100,
    UnrealizedPnL := 0, RealizedPnL := 0, MarketValue := 0 }

/-- A portfolio holding `posAAPL` with 99000 cash left. -/
def pHolding : Portfolio :=
  { Cash := 99000, Positions := [("AAPL", posAAPL)], TotalValue := 100000,
    UnrealizedPnL := 0, RealizedPnL := 0, TotalRisk := 0,
    TradeHistory := [], OrderHistory := [] }

/-- A sell order for the full 10-unit AAPL holding. -/
def orderSellAAPL : Order :=
  { ID := "o5", Symbol := "AAPL", Side := OrderSide.sell, Quantity := 10, Price := 110,
    Status := OrderStatus.pending, StrategyID := "s", RiskMetrics := RiskMetrics.empty }

/-- A portfolio with total value 1000 and an empty trade history, used to
instantiate the risk-metric theorems at a concrete input. -/
def pQuiet : Portfolio :=
  { Cash := 1000, Positions := [], TotalValue := 1000, UnrealizedPnL := 0,
    RealizedPnL := 0, TotalRisk := 0, TradeHistory := [], OrderHistory := [] }

/-- The risk metrics `CalculateRisk` returns for `orderSmall` against
`pQuiet`: empty history, so every derived figure is zero and beta is 1. -/
def rmQuiet : RiskMetrics :=
  { VaR95 := 0, ExpectedShortfall := 0, SharpeRatio := 0, MaxDrawdown := 0,
    Volatility := 0, Beta := 1 }

theorem alookup_aset_self {α : Type} (l : List (String × α)) (s : String) (v : α) :
    alookup (aset l s v) s = some v := by
  induction l with
  | nil => simp [aset, alookup]
  | cons e rest ih =>
      by_cases h : e.1 = s
      · simp [aset, h, alookup]
      · simp [aset, h, alookup, ih]

theorem alookup_aerase_self {α : Type} (l : List (String × α)) (s : String) :
    alookup (aerase l s) s = none := by
  induction l with
  | nil => simp [aerase, alookup]
  | cons e rest ih =>
      by_cases h : e.1 = s
      · simp [aerase, h, ih]
      · simp [aerase, h, alookup, ih]

/-- C1: for every valid buy order that is filled, executing it decreases cash
by exactly notional plus commission (notional × 0.001), increases the
position's quantity by exactly the order quantity, and recomputes the
volume-weighted average entry price as
`(oldAvg×oldQty + price×addedQty) / (oldQty+addedQty)`, a previously absent
position counting as `oldQty = 0`, `oldAvg = 0`. -/
theorem executeOrder_buy_accounting (o : Order) (p : Portfolio)
    (hside : o.Side = OrderSide.buy) (hq : 0 < o.Quantity) :
    (executeOrder o p).1.Cash
        = p.Cash - o.Price * (o.Quantity : ℚ) - o.Price * (o.Quantity : ℚ) * (1 / 1000) ∧
    posQty (executeOrder o p).1 o.Symbol = posQty p o.Symbol + o.Quantity ∧
    posAvg (executeOrder o p).1 o.Symbol
        = (posAvg p o.Symbol * ((posQty p o.Symbol : ℤ) : ℚ) + o.Price * (o.Quantity : ℚ))
            / (((posQty p o.Symbol : ℤ) : ℚ) + ((o.Quantity : ℤ) : ℚ)) := by
  cases hl : alookup p.Positions o.Symbol with
  | none =>
      refine ⟨?_, ?_, ?_⟩ <;>
        simp [executeOrder, hside, updatePosition, hl, hq, posQty, posAvg, alookup_aset_self]
  | some pos =>
      refine ⟨?_, ?_, ?_⟩ <;>
        simp [executeOrder, hside, updatePosition, hl, hq, posQty, posAvg, alookup_aset_self]

/-- Witness for C1 at a concrete input: buying 10 units of AAPL at 100 into
the fresh 100000-cash portfolio. -/
theorem executeOrder_buy_accounting_witness :
    (executeOrder orderBuyAAPL (initialPortfolio 100000)).1.Cash
        = (initialPortfolio 100000).Cash
          - orderBuyAAPL.Price * (orderBuyAAPL.Quantity : ℚ)
          - orderBuyAAPL.Price * (orderBuyAAPL.Quantity : ℚ) * (1 / 1000) ∧
    posQty (executeOrder orderBuyAAPL (initialPortfolio 100000)).1 orderBuyAAPL.Symbol
        = posQty (initialPortfolio 100000) orderBuyAAPL.Symbol + orderBuyAAPL.Quantity ∧
    posAvg (executeOrder orderBuyAAPL (initialPortfolio 100000)).1 orderBuyAAPL.Symbol
        = (posAvg (initialPortfolio 100000) orderBuyAAPL.Symbol
              * ((posQty (initialPortfolio 100000) orderBuyAAPL.Symbol : ℤ) : ℚ)
            + orderBuyAAPL.Price * (orderBuyAAPL.Quantity : ℚ))
            / (((posQty (initialPortfolio 100000) orderBuyAAPL.Symbol : ℤ) : ℚ)
                + ((orderBuyAAPL.Quantity : ℤ) : ℚ)) :=
  executeOrder_buy_accounting orderBuyAAPL (initialPortfolio 100000) (by decide) (by decide)

/-- C2: for every sell order filled against a position holding at least the
order quantity, execution increases cash by exactly notional minus
commission and decrements the position's quantity by the sold amount; if the
resulting quantity is ≤ 0 the position is absent from the positions map
afterwards; and no realized P&L is credited to the portfolio. -/
theorem executeOrder_sell_accounting (o : Order) (p : Portfolio) (pos : Position)
    (hside : o.Side = OrderSide.sell) (hq : 0 < o.Quantity)
    (hpos : alookup p.Positions o.Symbol = some pos)
    (hheld : o.Quantity ≤ pos.Quantity) :
    (executeOrder o p).1.Cash
        = p.Cash + o.Price * (o.Quantity : ℚ) - o.Price * (o.Quantity : ℚ) * (1 / 1000) ∧
    (pos.Quantity - o.Quantity ≤ 0 →
        alookup (executeOrder o p).1.Positions o.Symbol = none) ∧
    (0 < pos.Quantity - o.Quantity →
        posQty (executeOrder o p).1 o.Symbol = pos.Quantity - o.Quantity) ∧
    (executeOrder o p).1.RealizedPnL = p.RealizedPnL := by
  have hnotbuy : ¬ o.Side = OrderSide.buy := by
    rw [hside]; intro hcon; cases hcon
  have hnotpos : ¬ (0 : ℤ) < -o.Quantity := by omega
  by_cases hzero : pos.Quantity + -o.Quantity ≤ 0
  · refine ⟨?_, ?_, ?_, ?_⟩ <;>
      simp [executeOrder, hnotbuy, updatePosition, hpos, hnotpos, hzero, posQty,
        alookup_aerase_self] <;> omega
  · refine ⟨?_, ?_, ?_, ?_⟩ <;>
      simp [executeOrder, hnotbuy, updatePosition, hpos, hnotpos, hzero, posQty,
        alookup_aset_self] <;> omega

/-- Witness for C2 at a concrete input: selling all 10 units of AAPL out of
the portfolio produced by first buying them. -/
theorem executeOrder_sell_accounting_witness :
    (executeOrder orderSellAAPL pHolding).1.Cash
        = pHolding.Cash + orderSellAAPL.Price * (orderSellAAPL.Quantity : ℚ)
          - orderSellAAPL.Price * (orderSellAAPL.Quantity : ℚ) * (1 / 1000) ∧
    (posAAPL.Quantity - orderSellAAPL.Quantity ≤ 0 →
        alookup (executeOrder orderSellAAPL pHolding).1.Positions orderSellAAPL.Symbol = none) ∧
    (0 < posAAPL.Quantity - orderSellAAPL.Quantity →
        posQty (executeOrder orderSellAAPL pHolding).1 orderSellAAPL.Symbol
          = posAAPL.Quantity - orderSellAAPL.Quantity) ∧
    (executeOrder orderSellAAPL pHolding).1.RealizedPnL = pHolding.RealizedPnL :=
  executeOrder_sell_accounting orderSellAAPL pHolding posAAPL (by decide) (by decide)
    (by decide) (by decide)

/-- C3: `ValidateOrder` returns `InvalidQuantity` iff quantity ≤ 0; otherwise
`OrderTooSmall` iff the notional is below `MinOrderSize` and `OrderTooLarge`
iff it is above `MaxOrderSize`; otherwise, for a buy, `InsufficientFunds` iff
the notional exceeds cash, and for a sell, `InsufficientPosition` iff no
position exists for the symbol or the held quantity is below the order
quantity; otherwise it succeeds.  (It is pure by construction — the embedding
returns only the verdict — so the order and portfolio are left unchanged.) -/
theorem ValidateOrder_characterization (cfg : StrategyConfig) (o : Order) (p : Portfolio) :
    (ValidateOrder cfg o p = some Err.ErrInvalidQuantity ↔ o.Quantity ≤ 0) ∧
    (ValidateOrder cfg o p = some Err.ErrOrderTooSmall ↔
        0 < o.Quantity ∧ o.Price * (o.Quantity : ℚ) < cfg.MinOrderSize) ∧
    (ValidateOrder cfg o p = some Err.ErrOrderTooLarge ↔
        0 < o.Quantity ∧ cfg.MinOrderSize ≤ o.Price * (o.Quantity : ℚ) ∧
          cfg.MaxOrderSize < o.Price * (o.Quantity : ℚ)) ∧
    (ValidateOrder cfg o p = some Err.ErrInsufficientFunds ↔
        0 < o.Quantity ∧ cfg.MinOrderSize ≤ o.Price * (o.Quantity : ℚ) ∧
          o.Price * (o.Quantity : ℚ) ≤ cfg.MaxOrderSize ∧
          o.Side = OrderSide.buy ∧ p.Cash < o.Price * (o.Quantity : ℚ)) ∧
    (ValidateOrder cfg o p = some Err.ErrInsufficientPosition ↔
        0 < o.Quantity ∧ cfg.MinOrderSize ≤ o.Price * (o.Quantity : ℚ) ∧
          o.Price * (o.Quantity : ℚ) ≤ cfg.MaxOrderSize ∧
          o.Side = OrderSide.sell ∧
          (alookup p.Positions o.Symbol = none ∨
            ∃ pos, alookup p.Positions o.Symbol = some pos ∧ pos.Quantity < o.Quantity)) ∧
    (ValidateOrder cfg o p = none ↔
        0 < o.Quantity ∧ cfg.MinOrderSize ≤ o.Price * (o.Quantity : ℚ) ∧
          o.Price * (o.Quantity : ℚ) ≤ cfg.MaxOrderSize ∧
          ((o.Side = OrderSide.buy ∧ o.Price * (o.Quantity : ℚ) ≤ p.Cash) ∨
           (o.Side = OrderSide.sell ∧
             ∃ pos, alookup p.Positions o.Symbol = some pos ∧ o.Quantity ≤ pos.Quantity))) := by
  have hside : o.Side = OrderSide.buy ∨ o.Side = OrderSide.sell := by
    cases h : o.Side
    · exact Or.inl rfl
    · exact Or.inr rfl
  rcases hside with hs | hs <;>
    cases hl : alookup p.Positions o.Symbol <;>
      refine ⟨?_, ?_, ?_, ?_, ?_, ?_⟩ <;>
        simp [ValidateOrder, hs, hl] <;>
          split_ifs <;>
            simp_all

/-- C6: for a portfolio with nonzero total value, `CalculateRisk` computes
position risk as `orderNotional / portfolioTotalValue`, fails with
`PositionTooLarge` iff that ratio exceeds `MaxPositionSize`; otherwise fails
with `PortfolioRiskExceeded` iff the portfolio's aggregate risk plus this
position risk exceeds `MaxPortfolioRisk`; and returns risk metrics exactly
when neither threshold is exceeded. -/
theorem CalculateRisk_threshold_characterization (f : ℚ → ℚ) (cfg : StrategyConfig)
    (o : Order) (p : Portfolio) (hTV : p.TotalValue ≠ 0) :
    (CalculateRisk f cfg o p = Except.error Err.ErrPositionTooLarge ↔
        cfg.MaxPositionSize < o.Price * (o.Quantity : ℚ) / p.TotalValue) ∧
    (CalculateRisk f cfg o p = Except.error Err.ErrPortfolioRiskExceeded ↔
        o.Price * (o.Quantity : ℚ) / p.TotalValue ≤ cfg.MaxPositionSize ∧
        cfg.MaxPortfolioRisk < p.TotalRisk + o.Price * (o.Quantity : ℚ) / p.TotalValue) ∧
    ((∃ rm, CalculateRisk f cfg o p = Except.ok rm) ↔
        o.Price * (o.Quantity : ℚ) / p.TotalValue ≤ cfg.MaxPositionSize ∧
        p.TotalRisk + o.Price * (o.Quantity : ℚ) / p.TotalValue ≤ cfg.MaxPortfolioRisk) := by
  refine ⟨?_, ?_, ?_⟩ <;>
    simp [CalculateRisk, hTV] <;>
      split_ifs <;>
        simp_all [le_of_not_lt, not_le]

/-- Witness for C6 at a concrete input: the small order against the quiet
1000-value portfolio passes both thresholds. -/
theorem CalculateRisk_threshold_characterization_witness :
    (CalculateRisk (fun v => v) cfgStandard orderSmall pQuiet
          = Except.error Err.ErrPositionTooLarge ↔
        cfgStandard.MaxPositionSize
          < orderSmall.Price * (orderSmall.Quantity : ℚ) / pQuiet.TotalValue) ∧
    (CalculateRisk (fun v => v) cfgStandard orderSmall pQuiet
          = Except.error Err.ErrPortfolioRiskExceeded ↔
        orderSmall.Price * (orderSmall.Quantity : ℚ) / pQuiet.TotalValue
            ≤ cfgStandard.MaxPositionSize ∧
        cfgStandard.MaxPortfolioRisk
          < pQuiet.TotalRisk + orderSmall.Price * (orderSmall.Quantity : ℚ) / pQuiet.TotalValue) ∧
    ((∃ rm, CalculateRisk (fun v => v) cfgStandard orderSmall pQuiet = Except.ok rm) ↔
        orderSmall.Price * (orderSmall.Quantity : ℚ) / pQuiet.TotalValue
            ≤ cfgStandard.MaxPositionSize ∧
        pQuiet.TotalRisk + orderSmall.Price * (orderSmall.Quantity : ℚ) / pQuiet.TotalValue
            ≤ cfgStandard.MaxPortfolioRisk) :=
  CalculateRisk_threshold_characterization (fun v => v) cfgStandard orderSmall pQuiet
    (by norm_num [pQuiet])

theorem drawdown_foldl_eq (prices : List ℚ) : ∀ peak mdd : ℚ,
    (prices.foldl drawdownStep (peak, mdd)).2
      = (((runningMax peak prices).zip prices).map (fun pr => (pr.1 - pr.2) / pr.1)).foldl
          (fun a b => if a < b then b else a) mdd := by
  induction prices with
  | nil => intro peak mdd; simp [runningMax]
  | cons x xs ih =>
      intro peak mdd
      simp only [List.foldl_cons, runningMax, List.zip_cons_cons, List.map_cons, drawdownStep]
      exact ih _ _

/-- The Go fold of `calculateMaxDrawdown` computes exactly the spec-side
running-peak walk `specMaxDrawdown`. -/
theorem calculateMaxDrawdown_eq_spec (history : List Trade) :
    calculateMaxDrawdown history = specMaxDrawdown history := by
  cases history with
  | nil => simp [calculateMaxDrawdown, specMaxDrawdown]
  | cons t0 rest =>
      simp only [calculateMaxDrawdown, specMaxDrawdown, List.map_cons]
      exact drawdown_foldl_eq _ _ _

/-- C7 (amended): on every successful `CalculateRisk` call against a
portfolio with nonzero total value, VaR95 equals
`orderNotional × volatility × 1.645`, the expected shortfall equals
`VaR95 × 1.25`, the Sharpe ratio equals
`(orderNotional − RiskFreeRate) / volatility` and is zero when the
volatility is zero, and the max drawdown equals the largest peak-to-trough
percentage decline obtained by walking the entire symbol-agnostic trade
history in chronological order.  (When the portfolio's total value is zero,
`CalculateRisk` also succeeds but with all-zero metrics, see the
counterexample.) -/
theorem CalculateRisk_success_metrics (f : ℚ → ℚ) (cfg : StrategyConfig) (o : Order)
    (p : Portfolio) (rm : RiskMetrics) (hTV : p.TotalValue ≠ 0)
    (h : CalculateRisk f cfg o p = Except.ok rm) :
    rm.VaR95 = o.Price * (o.Quantity : ℚ) * rm.Volatility * (1645 / 1000) ∧
    rm.ExpectedShortfall = rm.VaR95 * (125 / 100) ∧
    rm.SharpeRatio = (if rm.Volatility = 0 then 0
        else (o.Price * (o.Quantity : ℚ) - cfg.RiskFreeRate) / rm.Volatility) ∧
    rm.MaxDrawdown = specMaxDrawdown p.TradeHistory := by
  simp only [CalculateRisk, if_neg hTV] at h
  split_ifs at h
  all_goals simp only [Except.ok.injEq] at h
  subst h
  refine ⟨rfl, rfl, rfl, ?_⟩
  exact calculateMaxDrawdown_eq_spec p.TradeHistory

/-- Witness for C7's amended theorem at a concrete input: the small order
against the quiet portfolio, whose metrics are `rmQuiet`. -/
theorem CalculateRisk_success_metrics_witness :
    rmQuiet.VaR95
        = orderSmall.Price * (orderSmall.Quantity : ℚ) * rmQuiet.Volatility * (1645 / 1000) ∧
    rmQuiet.ExpectedShortfall = rmQuiet.VaR95 * (125 / 100) ∧
    rmQuiet.SharpeRatio = (if rmQuiet.Volatility = 0 then 0
        else (orderSmall.Price * (orderSmall.Quantity : ℚ) - cfgStandard.RiskFreeRate)
              / rmQuiet.Volatility) ∧
    rmQuiet.MaxDrawdown = specMaxDrawdown pQuiet.TradeHistory :=
  CalculateRisk_success_metrics (fun v => v) cfgStandard orderSmall pQuiet rmQuiet
    (by norm_num [pQuiet])
    (by norm_num [CalculateRisk, cfgStandard, orderSmall, pQuiet, rmQuiet, calculateVolatility,
          calculateVaR, calculateExpectedShortfall, calculateSharpeRatio, calculateMaxDrawdown])

/-- Counterexample to C7 as stated: against a portfolio whose total value is
zero, `CalculateRisk` succeeds (returning the all-zero metrics) while the
trade history's peak-to-trough walk yields 1/2, so the returned max drawdown
is not the history walk. -/
theorem CalculateRisk_zeroTotal_counterexample :
    ((CalculateRisk (fun v => v) cfgPermissive orderSmall pZeroTotal).toOption.map
        (fun rm => rm.MaxDrawdown)) = some 0 ∧
    specMaxDrawdown pZeroTotal.TradeHistory = 1 / 2 ∧
    ((CalculateRisk (fun v => v) cfgPermissive orderSmall pZeroTotal).toOption.map
        (fun rm => rm.MaxDrawdown))
      ≠ some (specMaxDrawdown pZeroTotal.TradeHistory) := by
  refine ⟨?_, ?_, ?_⟩ <;>
    norm_num [CalculateRisk, cfgPermissive, orderSmall, pZeroTotal, decliningHistory,
      sampleTrade, Except.toOption, specMaxDrawdown, runningMax, RiskMetrics.empty]

theorem tradeReturns_short (symbol : String) (history : List Trade)
    (h : history.length < 2) : tradeReturns symbol history = [] := by
  match history with
  | [] => rfl
  | [_] => rfl
  | _ :: _ :: _ =>
      simp only [List.length_cons] at h
      exact absurd h (by omega)

/-- The paired-list recursion of the embedded `calculateVolatility` loop
computes exactly the index-walk return series of the amended claim. -/
theorem tradeReturns_eq_amendedReturns (symbol : String) :
    ∀ history : List Trade, tradeReturns symbol history = amendedReturns symbol history
  | [] => by simp [tradeReturns, amendedReturns]
  | [t] => by simp [tradeReturns, amendedReturns, List.range, List.range.loop]
  | t0 :: t1 :: rest => by
      have ih := tradeReturns_eq_amendedReturns symbol (t1 :: rest)
      have hlen : (t0 :: t1 :: rest).length - 1 = rest.length + 1 := by simp
      have hshift :
          ((List.range rest.length).map Nat.succ).filterMap (fun j =>
              match (t0 :: t1 :: rest).get? j, (t0 :: t1 :: rest).get? (j + 1) with
              | some prev, some curr =>
                  if curr.Symbol = symbol ∧ prev.Price ≠ 0 then
                    some ((curr.Price - prev.Price) / prev.Price)
                  else none
              | _, _ => none)
            = amendedReturns symbol (t1 :: rest) := by
        rw [List.filterMap_map]
        rfl
      by_cases hc : t1.Symbol = symbol ∧ t0.Price ≠ 0
      · simp only [tradeReturns, ih, amendedReturns, List.length_cons, Nat.add_sub_cancel,
          List.range_succ_eq_map, List.filterMap_cons, hshift, List.get?]
        simp [hc]
        congr 1
        funext j
        simp [Function.comp, List.getElem?_cons_succ]
      · simp only [tradeReturns, ih, amendedReturns, List.length_cons, Nat.add_sub_cancel,
          List.range_succ_eq_map, List.filterMap_cons, hshift, List.get?]
        simp [hc]
        congr 1
        funext j
        simp [Function.comp, List.getElem?_cons_succ]

theorem populationVariance_nonneg (rs : List ℚ) : 0 ≤ populationVariance rs := by
  apply div_nonneg
  · apply List.sum_nonneg
    intro x hx
    rcases List.mem_map.mp hx with ⟨r, _, rfl⟩
    exact mul_self_nonneg _
  · exact_mod_cast Nat.zero_le rs.length

theorem populationVariance_singleton (r : ℚ) : populationVariance [r] = 0 := by
  simp [populationVariance, listMean]

theorem tradeReturns_length_le (symbol : String) (t0 : Trade) (l : List Trade) :
    (tradeReturns symbol (t0 :: l)).length
      ≤ (l.filter (fun t => decide (t.Symbol = symbol))).length := by
  induction l generalizing t0 with
  | nil => simp [tradeReturns]
  | cons t1 l' ih =>
      have h := ih t1
      by_cases hs : t1.Symbol = symbol
      · by_cases hp : t0.Price ≠ 0
        · simp [tradeReturns, hs, hp, List.filter]
          omega
        · simp [tradeReturns, hs, hp, List.filter]
          omega
      · simp [tradeReturns, hs, List.filter]
        omega

/-- C4 (amended): the square of the volatility `CalculateRisk` returns is the
population variance of the percentage returns obtained by pairing each trade
of the order's symbol (at position ≥ 1 of the history) with the immediately
preceding trade of the whole trade history regardless of its symbol, skipping
pairs whose preceding price is zero; and it is zero whenever fewer than two
trades of the symbol exist in the trade history. -/
theorem calculateVolatilitySq_amended (symbol : String) (history : List Trade) :
    calculateVolatilitySq symbol history = amendedVolatilitySq symbol history ∧
    ((history.filter (fun t => decide (t.Symbol = symbol))).length < 2 →
      calculateVolatilitySq symbol history = 0) := by
  have hteq := tradeReturns_eq_amendedReturns symbol history
  constructor
  · by_cases hlen : history.length < 2
    · have hnil : tradeReturns symbol history = [] := tradeReturns_short symbol history hlen
      simp only [calculateVolatilitySq, calculateVolatility, if_pos hlen, amendedVolatilitySq,
        ← hteq, hnil]
      simp
    · simp only [calculateVolatilitySq, calculateVolatility, if_neg hlen, amendedVolatilitySq,
        ← hteq]
      rcases hrs : tradeReturns symbol history with _ | ⟨r, rs'⟩
      · simp
      · have hne : (r :: rs').length = 0 → False := by simp
        simp only [List.length_cons, Nat.succ_ne_zero, if_false, reduceIte]
        by_cases hv : 0 < populationVariance (r :: rs')
        · simp [if_pos hv]
        · have h0 : populationVariance (r :: rs') = 0 :=
            le_antisymm (not_lt.mp hv) (populationVariance_nonneg _)
          simp [if_neg hv, h0]
  · intro hcount
    by_cases hlen : history.length < 2
    · simp only [calculateVolatilitySq, calculateVolatility, if_pos hlen]
    · obtain ⟨t0, l, rfl⟩ : ∃ t0 l, history = t0 :: l := by
        cases history with
        | nil => simp at hlen
        | cons a l => exact ⟨a, l, rfl⟩
      have hlenle := tradeReturns_length_le symbol t0 l
      have hfl : (l.filter (fun t => decide (t.Symbol = symbol))).length
          ≤ ((t0 :: l).filter (fun t => decide (t.Symbol = symbol))).length := by
        by_cases h0 : t0.Symbol = symbol <;> simp [List.filter_cons, h0]
      have hr1 : (tradeReturns symbol (t0 :: l)).length ≤ 1 := by omega
      rcases hrs : tradeReturns symbol (t0 :: l) with _ | ⟨r, rs'⟩
      · simp only [calculateVolatilitySq, calculateVolatility, if_neg hlen, hrs]
        simp
      · have hrs' : rs' = [] := by
          rw [hrs] at hr1
          simp only [List.length_cons] at hr1
          exact List.length_eq_zero.mp (by omega)
        subst hrs'
        simp only [calculateVolatilitySq, calculateVolatility, if_neg hlen, hrs]
        simp [populationVariance_singleton]

/-- Counterexample to C4 as stated: in the history A@100, A@200, B@999,
A@200 the loop computes A's third return against B's price 999, so the
(squared) volatility is (899/999)², not the 1/4 that the symbol's own price
series 100, 200, 200 yields. -/
theorem calculateVolatilitySq_counterexample :
    calculateVolatilitySq "A" mixedHistory ≠ specVolatilitySq "A" mixedHistory := by
  have hrs : tradeReturns "A" mixedHistory = [1, -(799 / 999)] := by
    simp [tradeReturns, mixedHistory, sampleTrade]
    norm_num
  have hvar : populationVariance [1, -(799 / 999)] = 808201 / 998001 := by
    simp [populationVariance, listMean]
    norm_num
  have h1 : calculateVolatilitySq "A" mixedHistory = 808201 / 998001 := by
    simp only [calculateVolatilitySq, calculateVolatility, hrs, hvar]
    norm_num [mixedHistory]
  have hsp : symbolPrices "A" mixedHistory = [100, 200, 200] := by
    simp [symbolPrices, mixedHistory, sampleTrade]
  have hsr : seriesReturns ([100, 200, 200] : List ℚ) = [1, 0] := by
    simp [seriesReturns]
    norm_num
  have hvar2 : populationVariance [1, 0] = 1 / 4 := by
    simp [populationVariance, listMean]
    norm_num
  have h2 : specVolatilitySq "A" mixedHistory = 1 / 4 := by
    simp only [specVolatilitySq, hsp, hsr, hvar2]
    norm_num
  rw [h1, h2]
  norm_num

theorem valuation_foldl_positions (md : List (String × MarketData))
    (ps : List (String × Position)) :
    ∀ acc : List (String × Position) × ℚ × ℚ,
      (ps.foldl (valuationStep md) acc).1 = acc.1 ++ ps.map (updatedPosition md) := by
  induction ps with
  | nil => intro acc; simp
  | cons e rest ih =>
      intro acc
      simp only [List.foldl_cons, List.map_cons]
      rw [ih]
      cases hmd : alookup md e.1 with
      | none => simp [valuationStep, hmd, updatedPosition]
      | some d => simp [valuationStep, hmd]

theorem valuation_foldl_total (md : List (String × MarketData))
    (ps : List (String × Position)) :
    ∀ acc : List (String × Position) × ℚ × ℚ,
      (ps.foldl (valuationStep md) acc).2.1 = acc.2.1 + (ps.map (mvContrib md)).sum := by
  induction ps with
  | nil => intro acc; simp
  | cons e rest ih =>
      intro acc
      simp only [List.foldl_cons, List.map_cons, List.sum_cons]
      rw [ih]
      cases hmd : alookup md e.1 with
      | none => simp [valuationStep, hmd, mvContrib]
      | some d =>
          simp only [valuationStep, hmd, mvContrib]
          ring

/-- C5: after a valuation pass over a portfolio in which every position
lacking market data still has zero market value (an invariant of all
reachable portfolios, see the preservation lemmas below), the maintained
total value equals cash plus the sum of all positions' market values, and
every position with market data has had its market value and unrealized P&L
recomputed from the latest known price. -/
theorem updatePortfolio_totalValue (md : List (String × MarketData)) (p : Portfolio)
    (hinv : NoDataZeroMV md p) :
    (updatePortfolio md p).TotalValue
        = (updatePortfolio md p).Cash
          + (((updatePortfolio md p).Positions.map (fun e => e.2.MarketValue)).sum) ∧
    ∀ e ∈ (updatePortfolio md p).Positions, ∀ d, alookup md e.1 = some d →
      e.2.MarketValue = d.Price * (e.2.Quantity : ℚ) ∧
      e.2.UnrealizedPnL = (d.Price - e.2.AveragePrice) * (e.2.Quantity : ℚ) := by
  have h1 := valuation_foldl_positions md p.Positions ([], p.Cash, 0)
  have h2 := valuation_foldl_total md p.Positions ([], p.Cash, 0)
  constructor
  · simp only [updatePortfolio, h1, h2, List.nil_append]
    have hsum : ((p.Positions.map (updatedPosition md)).map (fun e => e.2.MarketValue)).sum
        = (p.Positions.map (mvContrib md)).sum := by
      rw [List.map_map]
      apply congrArg
      apply List.map_congr_left
      intro e he
      cases hmd : alookup md e.1 with
      | none =>
          simp only [Function.comp, mvContrib, hmd, updatedPosition]
          exact hinv e he hmd
      | some d => simp [Function.comp, mvContrib, hmd]
    rw [hsum]
  · intro e he d hd
    simp only [updatePortfolio, h1, List.nil_append] at he
    rcases List.mem_map.mp he with ⟨e0, he0, rfl⟩
    cases hmd : alookup md e0.1 with
    | none =>
        simp only [updatedPosition, hmd] at hd
        simp at hd
    | some d' =>
        simp only [updatedPosition, hmd] at hd ⊢
        injection hd with hdd
        subst hdd
        exact ⟨rfl, rfl⟩

/-- Witness for C5 at a concrete input: the fresh portfolio with no
positions against an empty market-data map. -/
theorem updatePortfolio_totalValue_witness :
    (updatePortfolio [] (initialPortfolio 7)).TotalValue
        = (updatePortfolio [] (initialPortfolio 7)).Cash
          + (((updatePortfolio [] (initialPortfolio 7)).Positions.map
                (fun e => e.2.MarketValue)).sum) ∧
    ∀ e ∈ (updatePortfolio [] (initialPortfolio 7)).Positions, ∀ d,
        alookup ([] : List (String × MarketData)) e.1 = some d →
      e.2.MarketValue = d.Price * (e.2.Quantity : ℚ) ∧
      e.2.UnrealizedPnL = (d.Price - e.2.AveragePrice) * (e.2.Quantity : ℚ) :=
  updatePortfolio_totalValue [] (initialPortfolio 7)
    (by intro e he; simp [initialPortfolio] at he)

theorem mem_aset {α : Type} (l : List (String × α)) (s : String) (v : α) :
    ∀ e ∈ aset l s v, e = (s, v) ∨ e ∈ l := by
  induction l with
  | nil => intro e he; simp [aset] at he; simp [he]
  | cons e0 rest ih =>
      intro e he
      by_cases h : e0.1 = s
      · simp only [aset, if_pos h, List.mem_cons] at he
        rcases he with he | he
        · exact Or.inl he
        · exact Or.inr (List.mem_cons_of_mem _ he)
      · simp only [aset, if_neg h, List.mem_cons] at he
        rcases he with he | he
        · exact Or.inr (by simp [he])
        · rcases ih e he with h' | h'
          · exact Or.inl h'
          · exact Or.inr (List.mem_cons_of_mem _ h')

theorem mem_aerase {α : Type} (l : List (String × α)) (s : String) :
    ∀ e ∈ aerase l s, e ∈ l := by
  induction l with
  | nil => intro e he; simp [aerase] at he
  | cons e0 rest ih =>
      intro e he
      by_cases h : e0.1 = s
      · simp only [aerase, if_pos h] at he
        exact List.mem_cons_of_mem _ (ih e he)
      · simp only [aerase, if_neg h, List.mem_cons] at he
        rcases he with he | he
        · simp [he]
        · exact List.mem_cons_of_mem _ (ih e he)

theorem alookup_mem {α : Type} (l : List (String × α)) (s : String) (v : α)
    (h : alookup l s = some v) : (s, v) ∈ l := by
  induction l with
  | nil => simp [alookup] at h
  | cons e0 rest ih =>
      by_cases h0 : e0.1 = s
      · simp only [alookup, if_pos h0] at h
        injection h with hv
        refine List.mem_cons.mpr (Or.inl ?_)
        cases e0 with
        | mk a b =>
            simp only at h0 hv
            subst h0
            subst hv
            rfl
      · simp only [alookup, if_neg h0] at h
        exact List.mem_cons_of_mem _ (ih h)

theorem alookup_aset {α : Type} (l : List (String × α)) (s x : String) (v : α) :
    alookup (aset l s v) x = if s = x then some v else alookup l x := by
  induction l with
  | nil => simp [aset, alookup]
  | cons e rest ih =>
      by_cases h : e.1 = s
      · by_cases hsx : s = x
        · simp [aset, h, alookup, hsx]
        · have hex : ¬ e.1 = x := by rw [h]; exact hsx
          simp [aset, h, alookup, hsx, hex]
      · by_cases hex : e.1 = x
        · have hsx : ¬ s = x := fun hsx => h (by rw [hex, hsx])
          have hxs : ¬ x = s := fun hh => hsx hh.symm
          simp [aset, h, alookup, hex, hsx, hxs]
        · simp [aset, h, alookup, hex, ih]

/-- Supporting C5: `updatePosition` preserves the reachable-state invariant —
it never writes a position's `MarketValue` (a freshly created position gets
market value 0, and re-averaging or decrementing keeps the stored value). -/
theorem updatePosition_preserves_NoDataZeroMV (md : List (String × MarketData))
    (symbol : String) (quantity : ℤ) (price : ℚ) (p : Portfolio)
    (hinv : NoDataZeroMV md p) : NoDataZeroMV md (updatePosition symbol quantity price p) := by
  intro e he hmd
  cases hl : alookup p.Positions symbol with
  | none =>
      simp only [updatePosition, hl] at he
      split_ifs at he
      · rcases mem_aset _ _ _ e he with he' | he'
        · subst he'; rfl
        · exact hinv e he' hmd
      · exact hinv e (mem_aerase _ _ e he) hmd
      · rcases mem_aset _ _ _ e he with he' | he'
        · subst he'; rfl
        · exact hinv e he' hmd
  | some pos =>
      simp only [updatePosition, hl] at he
      split_ifs at he
      · rcases mem_aset _ _ _ e he with he' | he'
        · subst he'
          exact hinv (symbol, pos) (alookup_mem _ _ _ hl) hmd
        · exact hinv e he' hmd
      · exact hinv e (mem_aerase _ _ e he) hmd
      · rcases mem_aset _ _ _ e he with he' | he'
        · subst he'
          exact hinv (symbol, pos) (alookup_mem _ _ _ hl) hmd
        · exact hinv e he' hmd

/-- Supporting C5: `executeOrder` preserves the reachable-state invariant (it
changes cash and delegates the position change to `updatePosition`). -/
theorem executeOrder_preserves_NoDataZeroMV (md : List (String × MarketData))
    (o : Order) (p : Portfolio) (hinv : NoDataZeroMV md p) :
    NoDataZeroMV md (executeOrder o p).1 := by
  simp only [executeOrder]
  split_ifs <;>
    exact updatePosition_preserves_NoDataZeroMV md _ _ _ _ (fun e he hmd => hinv e he hmd)

/-- Supporting C5: `processOrder` preserves the reachable-state invariant
(rejection leaves the portfolio unchanged; a fill goes through
`executeOrder`, and the order-history append does not touch positions). -/
theorem processOrder_preserves_NoDataZeroMV (md : List (String × MarketData)) (f : ℚ → ℚ)
    (strats : List (String × StrategyConfig)) (o : Order) (p : Portfolio)
    (hinv : NoDataZeroMV md p) : NoDataZeroMV md (processOrder f strats o p).1 := by
  cases hs : alookup strats o.StrategyID with
  | none => simpa only [processOrder, hs] using hinv
  | some cfg =>
      cases hv : ValidateOrder cfg o p with
      | some err => simpa only [processOrder, hs, hv] using hinv
      | none =>
          cases hr : CalculateRisk f cfg o p with
          | error err => simpa only [processOrder, hs, hv, hr] using hinv
          | ok rm =>
              simp only [processOrder, hs, hv, hr]
              intro e he hmd
              exact executeOrder_preserves_NoDataZeroMV md _ p hinv e he hmd

/-- Supporting C5: the valuation pass itself preserves the reachable-state
invariant — a position without market data is copied unchanged. -/
theorem updatePortfolio_preserves_NoDataZeroMV (md : List (String × MarketData))
    (p : Portfolio) (hinv : NoDataZeroMV md p) :
    NoDataZeroMV md (updatePortfolio md p) := by
  intro e he hmd
  simp only [updatePortfolio, valuation_foldl_positions md p.Positions ([], p.Cash, 0),
    List.nil_append] at he
  rcases List.mem_map.mp he with ⟨e0, he0, rfl⟩
  cases hl : alookup md e0.1 with
  | none =>
      simp only [updatedPosition, hl]
      exact hinv e0 he0 hl
  | some d =>
      simp only [updatedPosition, hl] at hmd
      simp at hmd

/-- Supporting C5: adding or overwriting a market-data entry
(`UpdateMarketData`) preserves the reachable-state invariant — the set of
symbols with data only grows. -/
theorem updateMarketData_preserves_NoDataZeroMV (md : List (String × MarketData))
    (symbol : String) (d : MarketData) (p : Portfolio) (hinv : NoDataZeroMV md p) :
    NoDataZeroMV (aset md symbol d) p := by
  intro e he hmd
  apply hinv e he
  rw [alookup_aset] at hmd
  by_cases h : symbol = e.1
  · rw [if_pos h] at hmd
    cases hmd
  · rwa [if_neg h] at hmd

/-- Supporting C5: the engine's initial portfolio satisfies the
reachable-state invariant (it has no positions at all). -/
theorem initialPortfolio_NoDataZeroMV (md : List (String × MarketData)) (c : ℚ) :
    NoDataZeroMV md (initialPortfolio c) := by
  intro e he
  simp [initialPortfolio] at he

theorem updatePosition_orderHistory (symbol : String) (quantity : ℤ) (price : ℚ)
    (p : Portfolio) : (updatePosition symbol quantity price p).OrderHistory = p.OrderHistory := by
  simp only [updatePosition]
  split_ifs <;> rfl

theorem executeOrder_orderHistory (o : Order) (p : Portfolio) :
    (executeOrder o p).1.OrderHistory = p.OrderHistory := by
  simp only [executeOrder]
  split_ifs <;> rw [updatePosition_orderHistory]

/-- C8 (amended): `processOrder` appends the order to the order history only
when the order fills — a rejected order leaves the portfolio, including the
order history, untouched and pushes no trade — and every filled order
produces exactly one Trade pushed to the trade queue and exactly one entry
appended to the order history; every processed order ends filled or
rejected. -/
theorem processOrder_history_and_trades (f : ℚ → ℚ)
    (strats : List (String × StrategyConfig)) (o : Order) (p : Portfolio) :
    ((processOrder f strats o p).2.2.Status = OrderStatus.filled →
        (processOrder f strats o p).1.OrderHistory
            = p.OrderHistory ++ [(processOrder f strats o p).2.2] ∧
        ((processOrder f strats o p).2.1).length = 1) ∧
    ((processOrder f strats o p).2.2.Status = OrderStatus.rejected →
        (processOrder f strats o p).1 = p ∧ (processOrder f strats o p).2.1 = []) ∧
    ((processOrder f strats o p).2.2.Status = OrderStatus.filled ∨
        (processOrder f strats o p).2.2.Status = OrderStatus.rejected) := by
  cases hs : alookup strats o.StrategyID with
  | none => simp [processOrder, hs]
  | some cfg =>
      cases hv : ValidateOrder cfg o p with
      | some err => simp [processOrder, hs, hv]
      | none =>
          cases hr : CalculateRisk f cfg o p with
          | error err => simp [processOrder, hs, hv, hr]
          | ok rm =>
              refine ⟨?_, ?_, ?_⟩
              · intro _
                constructor
                · simp only [processOrder, hs, hv, hr]
                  rw [executeOrder_orderHistory]
                · simp [processOrder, hs, hv, hr]
              · intro hst
                exfalso
                simp [processOrder, hs, hv, hr] at hst
              · left
                simp [processOrder, hs, hv, hr]

/-- Counterexample to C8 as stated: an order with zero quantity is rejected
by validation and `processOrder` returns before the history append, so the
order history stays empty — the rejected order is not appended. -/
theorem processOrder_rejected_not_appended :
    (processOrder (fun v => v) [("s", cfgStandard)] orderZeroQty
        (initialPortfolio 100000)).2.2.Status = OrderStatus.rejected ∧
    (processOrder (fun v => v) [("s", cfgStandard)] orderZeroQty
        (initialPortfolio 100000)).1.OrderHistory = [] := by
  refine ⟨?_, ?_⟩ <;>
    norm_num [processOrder, ValidateOrder, alookup, cfgStandard, orderZeroQty, initialPortfolio]

/-- C9: a buy order whose notional exactly equals the available cash passes
`ValidateOrder` (which compares cash against the notional only, excluding
commission) and `CalculateRisk`, yet after `executeOrder` fills it the cash
balance is strictly negative — exactly minus the commission. -/
theorem validated_buy_overdraws_cash :
    ValidateOrder cfgPermissive orderAllIn pAllCash = none ∧
    (CalculateRisk (fun v => v) cfgPermissive orderAllIn pAllCash).toOption.isSome = true ∧
    (executeOrder orderAllIn pAllCash).1.Cash < 0 ∧
    orderAllIn.Price * (orderAllIn.Quantity : ℚ) = pAllCash.Cash ∧
    (executeOrder orderAllIn pAllCash).1.Cash
        = -(orderAllIn.Price * (orderAllIn.Quantity : ℚ) * (1 / 1000)) := by
  refine ⟨?_, ?_, ?_, ?_, ?_⟩ <;>
    norm_num [ValidateOrder, CalculateRisk, executeOrder, updatePosition, alookup,
      cfgPermissive, orderAllIn, pAllCash, Except.toOption, Option.isSome]

/-- C10: a position freshly created by a fill has market value 0 until a
valuation pass sets it, so the risk sweep's drawdown computation
`UnrealizedPnL / MarketValue` over positions with positive quantity divides
by zero (a `decimal` panic in Go, the `none` entry here) on a reachable
portfolio: `manageRisk` is not total over reachable states. -/
theorem manageRisk_division_by_zero_reachable :
    (processOrder (fun v => v) [("s", cfgStandard)] orderBuyAAPL
        (initialPortfolio 100000)).2.2.Status = OrderStatus.filled ∧
    none ∈ manageRiskDrawdowns
        (processOrder (fun v => v) [("s", cfgStandard)] orderBuyAAPL
          (initialPortfolio 100000)).1 := by
  refine ⟨?_, ?_⟩ <;>
    norm_num [processOrder, ValidateOrder, CalculateRisk, executeOrder, updatePosition,
      alookup, aset, manageRiskDrawdowns, decimalDiv, List.filterMap,
      cfgStandard, orderBuyAAPL, initialPortfolio, calculateVolatility, calculateVaR,
      calculateExpectedShortfall, calculateSharpeRatio, calculateMaxDrawdown, RiskMetrics.empty]

end TradeAlgo
